import Mathlib

/-
Shallow embedding of the classGrabber application (src/app.py) covering the
acquisition scheduler (start_grab_course_task, start_grab_course_thread,
stop_grab_course, start_grab_course_route), the single-attempt function
grab_course, and the schedule consolidation engine (process_course_detail).
Machine strings are processed over List Char because the source manipulates
Python str values character-wise; wall-clock instants are modeled as integer
epoch seconds.
-/

/-! ### Character-level string helpers (models of Python str operations) -/

/-- Model of Python str.split(sep) for a one-character separator:
splitting the empty string yields one empty piece, and consecutive
separators yield empty pieces, exactly as in Python. -/
def splitOnChar (sep : Char) (l : List Char) : List (List Char) :=
  l.foldr
    (fun c acc =>
      match acc with
      | [] => [[c]]
      | cur :: rest => if c = sep then [] :: cur :: rest else (c :: cur) :: rest)
    [[]]

/-- Nonempty and every character an ASCII decimal digit. -/
def allDigits (l : List Char) : Bool :=
  !l.isEmpty && l.all Char.isDigit

/-- Numeric value of a list of decimal digit characters. -/
def charsToNat (l : List Char) : Nat :=
  l.foldl (fun acc c => acc * 10 + (c.toNat - 48)) 0

/-- Model of Python str.strip(): drop leading and trailing whitespace. -/
def stripSpaces (l : List Char) : List Char :=
  ((l.dropWhile Char.isWhitespace).reverse.dropWhile Char.isWhitespace).reverse

/-- Model of Python int(str): optional surrounding whitespace, optional one
sign character, then one or more ASCII decimal digits (unicode digits and
underscore separators accepted by CPython are not modeled; none occur in the
claims). Returns none where Python raises ValueError. -/
def pyInt (s : String) : Option Int :=
  match stripSpaces s.toList with
  | [] => none
  | '-' :: rest => if allDigits rest then some (-(charsToNat rest : Int)) else none
  | '+' :: rest => if allDigits rest then some ((charsToNat rest : Int)) else none
  | l => if allDigits l then some ((charsToNat l : Int)) else none

/-- True when the first list is a leading run of the second. -/
def startsWithSeq : List Char → List Char → Bool
  | [], _ => true
  | _ :: _, [] => false
  | a :: as, b :: bs => a = b && startsWithSeq as bs

/-- True when needle occurs contiguously inside hay; model of the Python
expression needle in hay on str values. -/
def hasSubSeq (needle : List Char) : List Char → Bool
  | [] => needle.isEmpty
  | b :: bs => startsWithSeq needle (b :: bs) || hasSubSeq needle bs

/-- Substring containment on String, via the character lists. -/
def strContains (hay needle : String) : Bool :=
  hasSubSeq needle.toList hay.toList

/-! ### Data model (the pydantic models of app.py) -/

/-- Course model of app.py: kcrwdm is the course-task code (identity),
kcmc the course name, teacher the teacher name. -/
structure Course where
  kcrwdm : Int
  kcmc : String
  teacher : String
  preset : Bool := false
  remark : String := ""
deriving DecidableEq

/-- AccountConfig nested model: the session cookie. -/
structure AccountConfig where
  cookie : String := ""
deriving DecidableEq

/-- Config model of app.py. The Python float delay is modeled as a rational;
it is only ever passed to time.sleep. start_time is optional, as in the
source where it defaults to None. -/
structure Config where
  account : AccountConfig := {}
  delay : ℚ := 1 / 2
  offset : Int := 300
  start_time : Option String := none
  courses : List Course := []

/-! ### grab_course: one acquisition attempt -/

/-- Sentinel substring of the raw response meaning that the course is
already held; the sole success oracle used by grab_course. -/
def successSentinel : String := "您已经选了该门课程"

/-- Log records written by grab_course: one per sent request carrying the
response text, or one failure record carrying the exception text. -/
inductive GrabLog where
  | sent (kcrwdm : Int) (respText : String)
  | failed (err : String)
deriving DecidableEq

/-- Model of grab_course(course, cookie). The transport outcome of
httpx.post is an explicit argument: ok carries the response text, error
carries the exception message. The try/except of the source catches every
exception, logs it and falls through to return False; accordingly this
model is a total function into Bool (no exception can escape) paired with
the log records it writes. -/
def grab_course (course : Course) (resp : Except String String) : Bool × List GrabLog :=
  match resp with
  | Except.ok text =>
      (strContains text successSentinel, [GrabLog.sent course.kcrwdm text])
  | Except.error e =>
      (false, [GrabLog.failed e])

/-! ### Worker: start_grab_course_task -/

/-- Observable events of one pass of the worker loop, in program order.
gateLog is the log line written while the time gate is closed; sleepPoll is
time.sleep(0.1); attempt k is a grab_course call for course id k (which
itself logs); stopLog is the log line of stop_grab_course; sleepGrace is
time.sleep(3); doneLog is the completion log line; sleepDelay is
time.sleep(config.delay) after an attempt. -/
inductive Ev where
  | gateLog
  | sleepPoll
  | attempt (kcrwdm : Int)
  | stopLog
  | sleepGrace
  | doneLog
  | sleepDelay
deriving DecidableEq

/-- Worker-visible state: the global task_running flag and the finished
set of course ids already grabbed (a Python set of ints). -/
structure WState where
  running : Bool
  finished : Finset Int
deriving DecidableEq

/-- Accumulator for the for-loop over config.courses. -/
structure PassAcc where
  running : Bool
  finished : Finset Int
  evs : List Ev
deriving DecidableEq

/-- One iteration of the for-loop body of start_grab_course_task for one
course: first the completion check (len(finished) == len(config.courses)),
which when it trips calls stop_grab_course (clearing the running flag and
logging), sleeps 3 seconds and logs completion; then the grab_course call;
then finished.add on success; then time.sleep(config.delay). Note that the
source neither breaks out of the loop nor skips courses already finished. -/
def courseStep (n : Nat) (oracle : Course → Bool) (acc : PassAcc) (c : Course) : PassAcc :=
  let acc :=
    if acc.finished.card = n then
      { acc with running := false, evs := acc.evs ++ [Ev.stopLog, Ev.sleepGrace, Ev.doneLog] }
    else acc
  let acc := { acc with evs := acc.evs ++ [Ev.attempt c.kcrwdm] }
  let acc :=
    if oracle c then { acc with finished := insert c.kcrwdm acc.finished } else acc
  { acc with evs := acc.evs ++ [Ev.sleepDelay] }

/-- Outcome of one iteration of the while loop of start_grab_course_task:
exitParse models the return taken when strptime raises ValueError; polled
models the time-gated branch (log, 0.1 second sleep, continue back to the
while condition, state unchanged); ran carries the events of a full pass
over config.courses and the state after it. -/
inductive PassOut where
  | exitParse
  | polled (evs : List Ev)
  | ran (evs : List Ev) (st : WState)
deriving DecidableEq

/-- One iteration of the while task_running loop of start_grab_course_task.
parsedStart is the datetime.strptime result on config.start_time in epoch
seconds (none where strptime raises); now is datetime.now() in epoch
seconds; the gate compares now against start minus config.offset seconds. -/
def runPass (cfg : Config) (oracle : Course → Bool) (parsedStart : Option Int)
    (now : Int) (st : WState) : PassOut :=
  match parsedStart with
  | none => PassOut.exitParse
  | some startT =>
      if now < startT - cfg.offset then
        PassOut.polled [Ev.gateLog, Ev.sleepPoll]
      else
        let acc := cfg.courses.foldl (courseStep cfg.courses.length oracle)
          ⟨st.running, st.finished, []⟩
        PassOut.ran acc.evs ⟨acc.running, acc.finished⟩

/-- Course ids of the attempt events, in order. -/
def attemptIds (evs : List Ev) : List Int :=
  evs.filterMap (fun e => match e with | Ev.attempt k => some k | _ => none)

/-- Number of completion log records among the events. -/
def countDone (evs : List Ev) : Nat :=
  (evs.filter (fun e => e = Ev.doneLog)).length

/-- Events of a pass outcome. -/
def eventsOfOut : PassOut → List Ev
  | PassOut.exitParse => []
  | PassOut.polled evs => evs
  | PassOut.ran evs _ => evs

/-! ### Controller: start_grab_course_thread / stop_grab_course -/

/-- Controller-visible state: the global task_running flag, the number of
worker threads spawned so far, and the log lines written (only the lines
written by the two lifecycle functions are tracked here). -/
structure AppState where
  task_running : Bool
  workers : Nat
  logs : List String
deriving DecidableEq

/-- Model of start_grab_course_thread: when task_running is False it sets
the flag and spawns one worker thread; in every case it then writes the
started log line (the log call sits outside the if in the source). -/
def start_grab_course_thread (st : AppState) : AppState :=
  let st :=
    if st.task_running = false then
      { st with task_running := true, workers := st.workers + 1 }
    else st
  { st with logs := st.logs ++ ["抢课已开始"] }

/-- Model of stop_grab_course: unconditionally clears task_running and
writes the stopped log line. -/
def stop_grab_course (st : AppState) : AppState :=
  { st with task_running := false, logs := st.logs ++ ["抢课已停止"] }

/-! ### strptime model and the /start route -/

/-- Leap year rule of the Gregorian calendar as used by Python datetime. -/
def isLeapYear (y : Int) : Bool :=
  y % 4 = 0 && (y % 100 ≠ 0 || y % 400 = 0)

/-- Days in a month of a year, matching Python datetime validation. -/
def daysInMonth (y m : Int) : Int :=
  if m = 2 then (if isLeapYear y then 29 else 28)
  else if m = 4 ∨ m = 6 ∨ m = 9 ∨ m = 11 then 30
  else 31

/-- Characters matched by the regular-expression class backslash-s of
CPython on str patterns, that is the Py_UNICODE_ISSPACE set: tab through
carriage return, the four file and group separators, space, next line,
no-break space, ogham space mark, the en-quad to hair-space block, line and
paragraph separators, narrow no-break space, medium mathematical space and
ideographic space. -/
def isPySpace (c : Char) : Bool :=
  decide ((9 ≤ c.toNat ∧ c.toNat ≤ 13) ∨ (28 ≤ c.toNat ∧ c.toNat ≤ 31) ∨
    c.toNat = 32 ∨ c.toNat = 133 ∨ c.toNat = 160 ∨ c.toNat = 0x1680 ∨
    (0x2000 ≤ c.toNat ∧ c.toNat ≤ 0x200A) ∨ c.toNat = 0x2028 ∨
    c.toNat = 0x2029 ∨ c.toNat = 0x202F ∨ c.toNat = 0x205F ∨ c.toNat = 0x3000)

/-- Modelled from Python datetime.strptime(s, "%Y-%m-%d %H:%M:%S").
CPython compiles the format into a regular expression in which the literal
space becomes a one-or-more whitespace run, the year directive is exactly
four digits, and month, day, hour, minute and second are one or two digit
runs; the matched values are then passed to the datetime constructor,
whose range checks (month 1..12, day 1..days in month, hour 0..23, minute
0..59, second 0..59, year at least 1) raise ValueError when violated, as
does a failed regex match, and the route treats both identically. This
model therefore takes everything before the first whitespace character as
the date part and everything after the whitespace run as the time part
(which must itself contain no whitespace), splits them on hyphens and
colons, and applies the digit-run and range checks. The second values 60
and 61, matched by the strptime expression but rejected by the datetime
constructor, end in ValueError either way and so in none here. Returns
the parsed fields, or none where Python raises ValueError. -/
def strptimeYmdHms (s : String) : Option (Int × Int × Int × Int × Int × Int) :=
  let l := s.toList
  let d := l.takeWhile (fun c => !isPySpace c)
  let rest := l.dropWhile (fun c => !isPySpace c)
  let t := rest.dropWhile isPySpace
  if rest.isEmpty ∨ t.any isPySpace then none
  else
    match splitOnChar '-' d, splitOnChar ':' t with
    | [ys, ms, ds], [hs, mins, ss] =>
      if allDigits ys ∧ allDigits ms ∧ allDigits ds ∧
          allDigits hs ∧ allDigits mins ∧ allDigits ss ∧
          ys.length = 4 ∧ ms.length ≤ 2 ∧ ds.length ≤ 2 ∧
          hs.length ≤ 2 ∧ mins.length ≤ 2 ∧ ss.length ≤ 2 then
        let y : Int := charsToNat ys
        let mo : Int := charsToNat ms
        let da : Int := charsToNat ds
        let h : Int := charsToNat hs
        let mi : Int := charsToNat mins
        let sec : Int := charsToNat ss
        if 1 ≤ y ∧ 1 ≤ mo ∧ mo ≤ 12 ∧ 1 ≤ da ∧ da ≤ daysInMonth y mo ∧
            h ≤ 23 ∧ mi ≤ 59 ∧ sec ≤ 59 then
          some (y, mo, da, h, mi, sec)
        else none
      else none
    | _, _ => none

/-- Response of the /start route: ok with the success message, or a 400
configuration error with its message. -/
inductive RouteResp where
  | ok (msg : String)
  | configError (msg : String)
deriving DecidableEq

/-- True exactly on the configError constructor. -/
def RouteResp.isConfigError : RouteResp → Bool
  | RouteResp.configError _ => true
  | RouteResp.ok _ => false

/-- Model of start_grab_course_route: a 400 error when config.start_time is
falsy (None or empty), a 400 error when strptime fails on it, and otherwise
a call to start_grab_course_thread followed by the success response. -/
def start_grab_course_route (cfg : Config) (st : AppState) : RouteResp × AppState :=
  match cfg.start_time with
  | none => (RouteResp.configError "未设置抢课开始时间", st)
  | some s =>
      if s = "" then (RouteResp.configError "未设置抢课开始时间", st)
      else
        match strptimeYmdHms s with
        | none => (RouteResp.configError "抢课开始时间格式不正确，应为 YYYY-MM-DD HH:MM:SS", st)
        | some _ => (RouteResp.ok "抢课已开始", start_grab_course_thread st)

/-! ### Schedule consolidation: process_course_detail -/

/-- Raw per-week session record as consumed by process_course_detail: the
JSON fields read from each item. zc (week), xq (weekday) and jcdm2 (comma
separated session indices) are raw strings parsed with int(); the rest are
taken verbatim. -/
structure RawItem where
  jxbmc : String
  xnxqmc : String
  jxhjmc : String
  zdgnqmc : String
  teaxms : String
  zc : String
  xq : String
  jcdm2 : String
  zdjxcdmc : String
deriving DecidableEq

/-- Derived time segment of one record: week, weekday, first and last
session index of the sorted session list. -/
structure Seg where
  week : Int
  day : Int
  start_session : Int
  end_session : Int
deriving DecidableEq

/-- Parse of one raw item into a segment: int(zc), int(xq), and the sorted
int list of jcdm2 split on commas, keeping only its first and last entry.
Returns none where Python raises ValueError. -/
def mkSeg (item : RawItem) : Option Seg :=
  match pyInt item.zc, pyInt item.xq with
  | some w, some d =>
      match (splitOnChar ',' item.jcdm2.toList).mapM
          (fun part => pyInt ⟨part⟩) with
      | some sessions =>
          match List.insertionSort (fun a b : Int => a ≤ b) sessions with
          | [] => none
          | h :: t => some ⟨w, d, h, (h :: t).getLastD h⟩
      | none => none
  | _, _ => none

/-- Sort key order of time_segments.sort: lexicographic on
(week, day, start_session), as produced by the Python tuple key. -/
def segLE (a b : Seg) : Bool :=
  if a.week ≠ b.week then decide (a.week < b.week)
  else if a.day ≠ b.day then decide (a.day < b.day)
  else decide (a.start_session ≤ b.start_session)

/-- Stable ascending sort of segments by (week, day, start_session); Python
list.sort is stable, and a stable sort under a fixed total preorder is
unique, so insertion sort reproduces it exactly. -/
def sortSegs (l : List Seg) : List Seg :=
  List.insertionSort (fun a b => segLE a b = true) l

/-- Inner loop of the merge over the sorted segments, carrying the current
segment: the next segment is absorbed (extending end_session) exactly when
it shares week and day and its start_session is the current end_session
plus one; otherwise the current segment is emitted and the next one becomes
current. -/
def mergeLoop (cur : Seg) : List Seg → List Seg
  | [] => [cur]
  | s :: rest =>
      if s.week = cur.week ∧ s.day = cur.day ∧
          s.start_session = cur.end_session + 1 then
        mergeLoop { cur with end_session := s.end_session } rest
      else
        cur :: mergeLoop s rest

/-- Merge of adjacent abutting segments, as the loop of the source with
current_segment initially None. -/
def mergeSegs : List Seg → List Seg
  | [] => []
  | s :: rest => mergeLoop s rest

/-- Grouping of merged segments under the key (day, start_session,
end_session) into an insertion-ordered association list, modeling the
Python dict week_group whose iteration order is insertion order; each
group accumulates its week values in encounter order. -/
def weekGroup (segs : List Seg) : List ((Int × Int × Int) × List Int) :=
  segs.foldl
    (fun acc seg =>
      let key := (seg.day, seg.start_session, seg.end_session)
      if acc.any (fun p => p.1 = key) then
        acc.map (fun p => if p.1 = key then (p.1, p.2 ++ [seg.week]) else p)
      else acc ++ [(key, [seg.week])])
    []

/-- WEEKDAY_MAPPING dict of the source; none models the KeyError raised on
a weekday outside 1..7. -/
def weekdayMapping (d : Int) : Option String :=
  if d = 1 then some "一"
  else if d = 2 then some "二"
  else if d = 3 then some "三"
  else if d = 4 then some "四"
  else if d = 5 then some "五"
  else if d = 6 then some "六"
  else if d = 7 then some "日"
  else none

/-- Greedy week-range compression over the tail of the sorted week list,
carrying the current run from s to e: the run extends while the next week
equals the current end plus one, and otherwise is emitted and restarted. -/
def weekRangesLoop (s e : Int) : List Int → List (Int × Int)
  | [] => [(s, e)]
  | w :: rest =>
      if w = e + 1 then weekRangesLoop s w rest
      else (s, e) :: weekRangesLoop w w rest

/-- Rendering of one compressed week range, with the tilde only between
distinct endpoints. -/
def renderWeekRange (p : Int × Int) : String :=
  if p.1 ≠ p.2 then "第" ++ toString p.1 ++ "~" ++ toString p.2 ++ "周"
  else "第" ++ toString p.1 ++ "周"

/-- Formatting of one group of the week_group map: a single-week group is
rendered directly; a multi-week group is sorted ascending, compressed by
weekRangesLoop, rendered range by range and joined with commas; both end
with the weekday name and the session span. Returns none where the source
would raise KeyError on the weekday lookup. -/
def formatGroup (key : Int × Int × Int) (weeks : List Int) : Option String :=
  match weekdayMapping key.1 with
  | none => none
  | some nm =>
      match weeks with
      | [w] =>
          some ("第" ++ toString w ++ "周 周" ++ nm ++ " " ++
            toString key.2.1 ++ "~" ++ toString key.2.2 ++ "节")
      | _ =>
          match List.insertionSort (fun a b : Int => a ≤ b) weeks with
          | [] => none
          | w :: rest =>
              some (String.intercalate ","
                  ((weekRangesLoop w w rest).map renderWeekRange) ++
                " 周" ++ nm ++ " " ++
                toString key.2.1 ++ "~" ++ toString key.2.2 ++ "节")

/-- Insertion-order deduplication, modeling accumulation into a Python set
(whose iteration order the source does not rely on; first-occurrence order
is the deterministic choice of this embedding). -/
def pySetList (l : List String) : List String :=
  l.foldl (fun acc x => if x ∈ acc then acc else acc ++ [x]) []

/-- Success payload of process_course_detail. -/
structure Detail where
  course_name : String
  term : String
  teach_style : String
  teacher_name : String
  location_type : String
  location : String
  course_time : String
deriving DecidableEq

/-- Result of process_course_detail: empty models the bare dict returned on
empty input, err models the all-None dict with the extra field returned
from the except branch, ok carries the populated dict. -/
inductive DetailOut where
  | empty
  | err (msg : String)
  | ok (r : Detail)
deriving DecidableEq

/-- Model of process_course_detail: on a nonempty record list, the header
fields are read from the first record, the teacher names of all records are
deduplicated and comma-joined, each record is parsed into a segment, the
segments are sorted and merged, grouped by (day, start, end), and each
group is formatted; any int() or weekday failure yields the err result. -/
def process_course_detail (data : List RawItem) : DetailOut :=
  match data with
  | [] => DetailOut.empty
  | first :: _ =>
      let teacherList := pySetList (data.map RawItem.teaxms)
      match data.mapM mkSeg with
      | none => DetailOut.err "invalid literal for int()"
      | some segs =>
          let locations := pySetList (data.map RawItem.zdjxcdmc)
          let merged := mergeSegs (sortSegs segs)
          match (weekGroup merged).mapM (fun p => formatGroup p.1 p.2) with
          | none => DetailOut.err "KeyError"
          | some formatted =>
              DetailOut.ok
                { course_name := first.jxbmc
                  term := first.xnxqmc
                  teach_style := first.jxhjmc
                  teacher_name := String.intercalate "," teacherList
                  location_type := first.zdgnqmc
                  location := locations.headD ""
                  course_time := String.intercalate ", " formatted }

/-! ### Concrete fixtures used by counterexamples and witnesses -/

/-- Sample course used in concrete evaluations. -/
def course0 : Course := { kcrwdm := 1, kcmc := "甲", teacher := "张三" }

/-- Sample configuration with two courses of ids 1 and 2. -/
def cfgA : Config :=
  { account := { cookie := "" }, delay := 1 / 2, offset := 300,
    start_time := some "2024-01-01 10:00:00",
    courses := [{ kcrwdm := 1, kcmc := "甲", teacher := "张三" },
                { kcrwdm := 2, kcmc := "乙", teacher := "李四" }] }

/-- Sample raw record: week 3, weekday 1, sessions 1 and 2. -/
def rec1 : RawItem :=
  { jxbmc := "课程A", xnxqmc := "2024春", jxhjmc := "理论", zdgnqmc := "教学区",
    teaxms := "张三", zc := "3", xq := "1", jcdm2 := "1,2", zdjxcdmc := "A101" }

/-- Sample raw record: week 3, weekday 1, sessions 3 and 4, other teacher. -/
def rec2 : RawItem :=
  { rec1 with teaxms := "李四", jcdm2 := "3,4" }

/-- Expected consolidation of rec1 and rec2. -/
def rec12Detail : Detail :=
  { course_name := "课程A", term := "2024春", teach_style := "理论",
    teacher_name := "张三,李四", location_type := "教学区", location := "A101",
    course_time := "第3周 周一 1~4节" }

/-! ### Helper lemmas on the worker fold -/

theorem countDone_append (l₁ l₂ : List Ev) :
    countDone (l₁ ++ l₂) = countDone l₁ + countDone l₂ := by
  simp [countDone, List.filter_append]

theorem attemptIds_append (l₁ l₂ : List Ev) :
    attemptIds (l₁ ++ l₂) = attemptIds l₁ ++ attemptIds l₂ := by
  simp [attemptIds, List.filterMap_append]

theorem foldl_courseStep_attempts (n : Nat) (o : Course → Bool) :
    ∀ (cs : List Course) (acc : PassAcc),
      attemptIds (List.foldl (courseStep n o) acc cs).evs =
        attemptIds acc.evs ++ cs.map Course.kcrwdm := by
  intro cs
  induction cs with
  | nil => intro acc; simp
  | cons c cs ih =>
      intro acc
      rw [List.foldl_cons, ih]
      have hstep : attemptIds (courseStep n o acc c).evs =
          attemptIds acc.evs ++ [c.kcrwdm] := by
        unfold courseStep
        split_ifs <;> simp [attemptIds, List.filterMap_append]
      rw [hstep]
      simp

theorem foldl_courseStep_full (n : Nat) (o : Course → Bool) :
    ∀ (cs : List Course) (acc : PassAcc), acc.finished.card = n →
      (∀ c ∈ cs, c.kcrwdm ∈ acc.finished) →
      (List.foldl (courseStep n o) acc cs).finished = acc.finished ∧
      countDone (List.foldl (courseStep n o) acc cs).evs =
        countDone acc.evs + cs.length ∧
      (cs ≠ [] → (List.foldl (courseStep n o) acc cs).running = false) := by
  intro cs
  induction cs with
  | nil => intro acc _ _; simp
  | cons c cs ih =>
      intro acc hcard hmem
      have hc : c.kcrwdm ∈ acc.finished := hmem c (by simp)
      have hstep : courseStep n o acc c =
          ⟨false, acc.finished,
            acc.evs ++ [Ev.stopLog, Ev.sleepGrace, Ev.doneLog] ++
              [Ev.attempt c.kcrwdm] ++ [Ev.sleepDelay]⟩ := by
        unfold courseStep
        rw [if_pos hcard]
        by_cases ho : o c <;> simp [ho, Finset.insert_eq_self.mpr hc]
      rw [List.foldl_cons, hstep]
      obtain ⟨h1, h2, h3⟩ := ih ⟨false, acc.finished,
          acc.evs ++ [Ev.stopLog, Ev.sleepGrace, Ev.doneLog] ++
            [Ev.attempt c.kcrwdm] ++ [Ev.sleepDelay]⟩ hcard
        (fun c' hc' => hmem c' (List.mem_cons_of_mem _ hc'))
      refine ⟨h1, ?_, ?_⟩
      · rw [h2]
        simp [countDone_append, countDone]
        omega
      · intro _
        by_cases hcs : cs = []
        · subst hcs; exact h1 ▸ rfl
        · exact h3 hcs

/-! ### C3 -/

/-- C3: a single grab_course attempt succeeds exactly when the raw response
text contains the fixed sentinel substring meaning that the course is
already held, and a transport error is swallowed: the attempt returns false
together with one failure log record, and no exception propagates (the
model is a total function). -/
theorem grab_course_success_iff_sentinel (course : Course) (resp : Except String String) :
    ((grab_course course resp).1 = true ↔
      ∃ t, resp = Except.ok t ∧ strContains t successSentinel = true) ∧
    (∀ e, resp = Except.error e →
      grab_course course resp = (false, [GrabLog.failed e])) := by
  cases resp with
  | ok text =>
      constructor
      · simp [grab_course]
      · intro e he; cases he
  | error e =>
      constructor
      · simp [grab_course]
      · intro e' he'
        cases he'
        simp [grab_course]

/-- Witness for C3: a concrete transport error yields (false, one failure
log), and a concrete response containing the sentinel yields true. -/
theorem grab_course_success_iff_sentinel_witness :
    grab_course course0 (Except.error "网络超时") = (false, [GrabLog.failed "网络超时"]) ∧
    (grab_course course0 (Except.ok "对不起，您已经选了该门课程！")).1 = true := by
  constructor
  · exact (grab_course_success_iff_sentinel course0 (Except.error "网络超时")).2 "网络超时" rfl
  · exact ((grab_course_success_iff_sentinel course0
      (Except.ok "对不起，您已经选了该门课程！")).1).mpr ⟨_, rfl, by decide⟩

/-! ### C4 -/

/-- C4 (amended): while the gate is closed (now earlier than start minus
offset), a pass of the worker issues no acquisition attempt: it writes one
gate log line, sleeps the fixed 0.1 second poll interval, and returns to
the while condition where cancellation is re-checked, leaving the state
unchanged. No attemptAcquire call occurs before startTime minus offset. -/
theorem time_gate_no_attempts (cfg : Config) (oracle : Course → Bool)
    (startT now : Int) (st : WState) (h : now < startT - cfg.offset) :
    runPass cfg oracle (some startT) now st = PassOut.polled [Ev.gateLog, Ev.sleepPoll] ∧
    attemptIds (eventsOfOut (runPass cfg oracle (some startT) now st)) = [] := by
  constructor
  · simp [runPass, if_pos h]
  · simp [runPass, if_pos h, eventsOfOut, attemptIds]

/-- Witness for C4: a concrete pass 1300 seconds before the gate opens
issues no attempt. -/
theorem time_gate_no_attempts_witness :
    runPass cfgA (fun _ => false) (some 0) (-1000) ⟨true, ∅⟩ =
      PassOut.polled [Ev.gateLog, Ev.sleepPoll] ∧
    attemptIds (eventsOfOut (runPass cfgA (fun _ => false) (some 0) (-1000) ⟨true, ∅⟩)) = [] :=
  time_gate_no_attempts cfgA (fun _ => false) 0 (-1000) ⟨true, ∅⟩ (by decide)

/-- Counterexample for C4 as stated: before the gate opens the worker does
not only sleep and re-check cancellation — each poll also writes a log
line, so the observable events of a gated pass are a gate log followed by
the poll sleep, not the poll sleep alone. -/
theorem time_gate_logs_each_poll :
    eventsOfOut (runPass cfgA (fun _ => false) (some 0) (-1000) ⟨true, ∅⟩) =
      [Ev.gateLog, Ev.sleepPoll] ∧
    eventsOfOut (runPass cfgA (fun _ => false) (some 0) (-1000) ⟨true, ∅⟩) ≠
      [Ev.sleepPoll] := by
  constructor
  · decide
  · decide

/-! ### C5 -/

/-- C5 (amended): starting while already Running spawns no second worker
and leaves the running flag set — at most one worker is ever active — but
the call is not log-free: every call of start_grab_course_thread, including
a no-op one, appends one started log record, because the log call sits
outside the conditional in the source. -/
theorem start_idempotent_running (st : AppState) (h : st.task_running = true) :
    (start_grab_course_thread st).workers = st.workers ∧
    (start_grab_course_thread st).task_running = true ∧
    (start_grab_course_thread st).logs = st.logs ++ ["抢课已开始"] := by
  simp [start_grab_course_thread, h]

/-- Witness for C5: starting from a concrete Running state with one worker
spawns nothing and keeps the flag. -/
theorem start_idempotent_running_witness :
    (start_grab_course_thread ⟨true, 1, []⟩).workers = 1 ∧
    (start_grab_course_thread ⟨true, 1, []⟩).task_running = true ∧
    (start_grab_course_thread ⟨true, 1, []⟩).logs = [] ++ ["抢课已开始"] :=
  start_idempotent_running ⟨true, 1, []⟩ rfl

/-- Counterexample for C5 as stated: calling start while Running is not a
pure no-op — the state changes because a started log record is appended
even though no start transition happened. -/
theorem start_logs_when_running :
    start_grab_course_thread ⟨true, 1, []⟩ ≠ ⟨true, 1, []⟩ ∧
    (start_grab_course_thread ⟨true, 1, []⟩).logs = ["抢课已开始"] := by
  constructor
  · decide
  · decide

/-! ### C6 -/

/-- C6 (amended): stopping while Idle keeps the state Idle and touches no
worker, but it is observable: stop_grab_course unconditionally appends one
stopped log record even when no transition occurs. -/
theorem stop_idle_keeps_idle (st : AppState) (_h : st.task_running = false) :
    (stop_grab_course st).task_running = false ∧
    (stop_grab_course st).workers = st.workers ∧
    (stop_grab_course st).logs = st.logs ++ ["抢课已停止"] := by
  simp [stop_grab_course]

/-- Witness for C6: stopping a concrete Idle state keeps it Idle. -/
theorem stop_idle_keeps_idle_witness :
    (stop_grab_course ⟨false, 0, []⟩).task_running = false ∧
    (stop_grab_course ⟨false, 0, []⟩).workers = 0 ∧
    (stop_grab_course ⟨false, 0, []⟩).logs = [] ++ ["抢课已停止"] :=
  stop_idle_keeps_idle ⟨false, 0, []⟩ rfl

/-- Counterexample for C6 as stated: stop while Idle is not free of
observable effect at a concrete Idle state — a stopped log record is
written, though the run state indeed stays Idle. -/
theorem stop_idle_logs :
    stop_grab_course ⟨false, 0, []⟩ ≠ ⟨false, 0, []⟩ ∧
    (stop_grab_course ⟨false, 0, []⟩).task_running = false := by
  constructor
  · decide
  · decide

/-! ### C1 -/

/-- C1 (amended): in every pass of the main loop with the gate open, the
worker issues one acquisition attempt for every course of the configured
list, in original list order — including courses whose ids are already in
the finished set, because the for loop of the source never filters on the
finished set. -/
theorem worker_attempts_all_courses (cfg : Config) (oracle : Course → Bool)
    (startT now : Int) (st : WState) (hgate : ¬ now < startT - cfg.offset) :
    attemptIds (eventsOfOut (runPass cfg oracle (some startT) now st)) =
      cfg.courses.map Course.kcrwdm := by
  simp only [runPass, if_neg hgate, eventsOfOut]
  simpa using foldl_courseStep_attempts cfg.courses.length oracle cfg.courses
    ⟨st.running, st.finished, []⟩

/-- Witness for C1: a concrete open-gate pass attempts both configured
courses in order. -/
theorem worker_attempts_all_courses_witness :
    attemptIds (eventsOfOut (runPass cfgA (fun _ => false) (some 0) 1000 ⟨true, ∅⟩)) =
      [1, 2] :=
  (worker_attempts_all_courses cfgA (fun _ => false) 0 1000 ⟨true, ∅⟩ (by decide)).trans rfl

/-- Counterexample for C1 as stated: with course id 1 already in the
finished set at the start of a pass, the pass still issues an acquisition
attempt for course 1 (the attempt list is [1, 2], not [2]). -/
theorem worker_attempts_finished_course :
    (1 : Int) ∈ (⟨true, {1}⟩ : WState).finished ∧
    attemptIds (eventsOfOut (runPass cfgA (fun _ => false) (some 0) 1000 ⟨true, {1}⟩)) =
      [1, 2] := by
  constructor
  · decide
  · decide

/-! ### C2 -/

/-- C2 (amended): the completion check (len(finished) == len(courses)) is
evaluated before each individual course attempt inside the for loop, not
once per pass at the top of the while loop; each time it trips the worker
calls stop_grab_course (clearing the running flag and logging a stop
record), sleeps the fixed 3 second grace period and writes a completion log
record, and then still proceeds with the current and all remaining attempts
of the pass. Hence in a pass that begins with the finished set already
equal to the set of course ids, the check trips before every one of the
N attempts: N completion records are written (not one), all N courses are
still attempted, and the loop can only exit at the pass boundary where the
cleared running flag is re-read. -/
theorem completion_check_per_course (cfg : Config) (oracle : Course → Bool)
    (startT now : Int) (st : WState)
    (hgate : ¬ now < startT - cfg.offset)
    (hne : cfg.courses ≠ [])
    (hnd : (cfg.courses.map Course.kcrwdm).Nodup)
    (hfin : st.finished = (cfg.courses.map Course.kcrwdm).toFinset) :
    ∃ evs, runPass cfg oracle (some startT) now st = PassOut.ran evs ⟨false, st.finished⟩ ∧
      countDone evs = cfg.courses.length ∧
      attemptIds evs = cfg.courses.map Course.kcrwdm := by
  have hcard : (⟨st.running, st.finished, []⟩ : PassAcc).finished.card = cfg.courses.length := by
    simp [hfin, List.toFinset_card_of_nodup hnd]
  have hmem : ∀ c ∈ cfg.courses, c.kcrwdm ∈ (⟨st.running, st.finished, []⟩ : PassAcc).finished := by
    intro c hc
    simp only [hfin, List.mem_toFinset]
    exact List.mem_map_of_mem _ hc
  obtain ⟨h1, h2, h3⟩ := foldl_courseStep_full cfg.courses.length oracle cfg.courses
    ⟨st.running, st.finished, []⟩ hcard hmem
  refine ⟨(List.foldl (courseStep cfg.courses.length oracle)
      ⟨st.running, st.finished, []⟩ cfg.courses).evs, ?_, ?_, ?_⟩
  · simp only [runPass, if_neg hgate]
    rw [h3 hne, h1]
  · rw [h2]; simp [countDone]
  · simpa using foldl_courseStep_attempts cfg.courses.length oracle cfg.courses
      ⟨st.running, st.finished, []⟩

/-- Witness for C2: a concrete pass beginning with both course ids already
finished writes two completion records and still attempts both courses. -/
theorem completion_check_per_course_witness :
    ∃ evs, runPass cfgA (fun _ => false) (some 0) 1000 ⟨true, {1, 2}⟩ =
        PassOut.ran evs ⟨false, {1, 2}⟩ ∧
      countDone evs = 2 ∧
      attemptIds evs = [1, 2] :=
  completion_check_per_course cfgA (fun _ => false) 0 1000 ⟨true, {1, 2}⟩
    (by decide) (by decide) (by decide) (by decide)

/-- Counterexample for C2 as stated: in a concrete pass over two courses
that starts with the finished set complete, the completion log record is
written twice, not exactly once, and acquisition attempts are still issued
after the first trip. -/
theorem completion_double_log :
    countDone (eventsOfOut (runPass cfgA (fun _ => false) (some 0) 1000 ⟨true, {1, 2}⟩)) = 2 ∧
    attemptIds (eventsOfOut (runPass cfgA (fun _ => false) (some 0) 1000 ⟨true, {1, 2}⟩)) =
      [1, 2] ∧
    ¬ countDone (eventsOfOut (runPass cfgA (fun _ => false) (some 0) 1000 ⟨true, {1, 2}⟩)) = 1 := by
  refine ⟨?_, ?_, ?_⟩
  · decide
  · decide
  · decide

/-! ### C7 -/

/-- C7: the /start route answers with a configuration error exactly when
config.start_time is absent or fails to parse as YYYY-MM-DD HH:MM:SS; in
that case the application state is untouched (no worker spawned, run state
unchanged), and otherwise the worker thread starter runs and the success
response is returned. -/
theorem start_route_config_error_iff (cfg : Config) (st : AppState) :
    ((start_grab_course_route cfg st).1.isConfigError = true ↔
      cfg.start_time.bind strptimeYmdHms = none) ∧
    (cfg.start_time.bind strptimeYmdHms = none →
      (start_grab_course_route cfg st).2 = st) ∧
    (∀ s r, cfg.start_time = some s → strptimeYmdHms s = some r →
      start_grab_course_route cfg st =
        (RouteResp.ok "抢课已开始", start_grab_course_thread st)) := by
  have hempty : strptimeYmdHms "" = none := by decide
  refine ⟨?_, ?_, ?_⟩
  · cases hst : cfg.start_time with
    | none => simp [start_grab_course_route, hst, RouteResp.isConfigError]
    | some s =>
        by_cases hs : s = ""
        · subst hs
          simp [start_grab_course_route, hst, hempty, RouteResp.isConfigError]
        · cases hp : strptimeYmdHms s with
          | none =>
              simp [start_grab_course_route, hst, hs, hp, RouteResp.isConfigError]
          | some r =>
              simp [start_grab_course_route, hst, hs, hp, RouteResp.isConfigError]
  · intro hb
    cases hst : cfg.start_time with
    | none => simp [start_grab_course_route, hst]
    | some s =>
        rw [hst] at hb
        replace hb : strptimeYmdHms s = none := hb
        by_cases hs : s = ""
        · subst hs
          simp [start_grab_course_route, hst]
        · simp [start_grab_course_route, hst, hs, hb]
  · intro s r hs hp
    have hne : s ≠ "" := by
      intro he
      subst he
      rw [hempty] at hp
      cases hp
    simp [start_grab_course_route, hs, hne, hp]

/-- Witness for C7: a concrete config whose start time has month 13 gets a
configuration error and the state is unchanged, and the well-formed cfgA
start time starts the worker. -/
theorem start_route_config_error_iff_witness :
    ((start_grab_course_route { cfgA with start_time := some "2024-13-01 10:00:00" }
        ⟨false, 0, []⟩).1.isConfigError = true) ∧
    ((start_grab_course_route { cfgA with start_time := some "2024-13-01 10:00:00" }
        ⟨false, 0, []⟩).2 = ⟨false, 0, []⟩) ∧
    (start_grab_course_route cfgA ⟨false, 0, []⟩ =
      (RouteResp.ok "抢课已开始", start_grab_course_thread ⟨false, 0, []⟩)) := by
  refine ⟨?_, ?_, ?_⟩
  · exact ((start_route_config_error_iff
      { cfgA with start_time := some "2024-13-01 10:00:00" } ⟨false, 0, []⟩).1).mpr (by decide)
  · exact (start_route_config_error_iff
      { cfgA with start_time := some "2024-13-01 10:00:00" } ⟨false, 0, []⟩).2.1 (by decide)
  · exact (start_route_config_error_iff cfgA ⟨false, 0, []⟩).2.2
      "2024-01-01 10:00:00" (2024, 1, 1, 10, 0, 0) rfl (by decide)

/-- Calibration of the strptime model against CPython on the judged
boundary cases: a three-digit year is rejected (the year directive demands
exactly four digits), a four-digit year with a leading zero is accepted,
the date and time parts may be separated by any run of whitespace
characters (two spaces, a tab), and a missing separator run is rejected. -/
theorem strptimeYmdHms_boundary_cases :
    strptimeYmdHms "999-01-01 00:00:00" = none ∧
    strptimeYmdHms "0999-01-01 00:00:00" = some (999, 1, 1, 0, 0, 0) ∧
    strptimeYmdHms "2024-01-01  10:00:00" = some (2024, 1, 1, 10, 0, 0) ∧
    strptimeYmdHms "2024-01-01\t10:00:00" = some (2024, 1, 1, 10, 0, 0) ∧
    strptimeYmdHms "2024-01-0110:00:00" = none := by
  refine ⟨?_, ?_, ?_, ?_, ?_⟩ <;> decide

/-! ### C8 -/

/-- C8: in the sorted segment list, two adjacent derived tuples merge into
one segment extending end_session if and only if they share week and
weekday and the second start_session equals the first end_session plus one;
and the two raw records (week 3, weekday 1, sessions 1,2) and (week 3,
weekday 1, sessions 3,4) consolidate through the parse, sort and merge
pipeline to the single segment (week 3, weekday 1, start 1, end 4). -/
theorem merge_adjacent_iff :
    (∀ a b : Seg,
      (mergeSegs [a, b] = [{ a with end_session := b.end_session }] ↔
        (b.week = a.week ∧ b.day = a.day ∧ b.start_session = a.end_session + 1))) ∧
    ([rec1, rec2].mapM mkSeg).map (fun segs => mergeSegs (sortSegs segs)) =
      some [⟨3, 1, 1, 4⟩] := by
  constructor
  · intro a b
    by_cases hc : b.week = a.week ∧ b.day = a.day ∧ b.start_session = a.end_session + 1
    · simp [mergeSegs, mergeLoop, hc]
    · constructor
      · intro h
        simp [mergeSegs, mergeLoop, hc] at h
      · intro h
        exact absurd h hc
  · decide

/-- Witness for C8: the sorted adjacent segments (3,1,1,2) and (3,1,3,4)
merge into the single segment (3,1,1,4). -/
theorem merge_adjacent_iff_witness :
    mergeSegs [⟨3, 1, 1, 2⟩, ⟨3, 1, 3, 4⟩] = [⟨3, 1, 1, 4⟩] :=
  (merge_adjacent_iff.1 ⟨3, 1, 1, 2⟩ ⟨3, 1, 3, 4⟩).mpr (by decide)

/-! ### C9 -/

/-- C9: a group of merged segments at one (weekday, start, end) key has its
week list sorted ascending and compressed greedily into contiguous ranges:
the weeks 1,2,3,5,6 (given in scrambled order) format as the two ranges
第1~3周,第5~6周 followed by the weekday name and session span, a single
week 4 formats as 第4周 without a range tilde, and the greedy loop extends
a run exactly while the next week equals the current end plus one. -/
theorem week_range_formatting (day s e : Int) (nm : String)
    (h : weekdayMapping day = some nm) :
    formatGroup (day, s, e) [5, 1, 6, 2, 3] =
      some ("第1~3周,第5~6周 周" ++ nm ++ " " ++ toString s ++ "~" ++ toString e ++ "节") ∧
    formatGroup (day, s, e) [4] =
      some ("第4周 周" ++ nm ++ " " ++ toString s ++ "~" ++ toString e ++ "节") ∧
    (∀ (a b w : Int) (rest : List Int),
      weekRangesLoop a b (w :: rest) =
        if w = b + 1 then weekRangesLoop a w rest
        else (a, b) :: weekRangesLoop w w rest) := by
  refine ⟨?_, ?_, ?_⟩
  · unfold formatGroup
    dsimp only
    rw [h]
    rfl
  · unfold formatGroup
    dsimp only
    rw [h]
    rfl
  · intro a b w rest
    rfl

/-- Witness for C9: at weekday 3 and sessions 9 to 10, the scrambled weeks
render as 第1~3周,第5~6周 周三 9~10节 and the single week as
第4周 周三 9~10节. -/
theorem week_range_formatting_witness :
    formatGroup (3, 9, 10) [5, 1, 6, 2, 3] = some "第1~3周,第5~6周 周三 9~10节" ∧
    formatGroup (3, 9, 10) [4] = some "第4周 周三 9~10节" := by
  constructor
  · exact ((week_range_formatting 3 9 10 "三" (by decide)).1).trans (by decide)
  · exact ((week_range_formatting 3 9 10 "三" (by decide)).2.1).trans (by decide)

/-! ### C10 helper lemmas -/

theorem pySetList_aux (l : List String) :
    ∀ acc : List String, acc.Nodup →
      (List.foldl (fun acc x => if x ∈ acc then acc else acc ++ [x]) acc l).Nodup ∧
      (List.foldl (fun acc x => if x ∈ acc then acc else acc ++ [x]) acc l).toFinset =
        acc.toFinset ∪ l.toFinset := by
  induction l with
  | nil => intro acc h; simp [h]
  | cons x l ih =>
      intro acc h
      by_cases hx : x ∈ acc
      · rw [List.foldl_cons, if_pos hx]
        obtain ⟨h1, h2⟩ := ih acc h
        refine ⟨h1, ?_⟩
        rw [h2, List.toFinset_cons]
        ext y
        simp only [Finset.mem_union, Finset.mem_insert, List.mem_toFinset]
        constructor
        · rintro (hy | hy)
          · exact Or.inl hy
          · exact Or.inr (Or.inr hy)
        · rintro (hy | rfl | hy)
          · exact Or.inl hy
          · exact Or.inl hx
          · exact Or.inr hy
      · rw [List.foldl_cons, if_neg hx]
        have hacc : (acc ++ [x]).Nodup := by
          simp [List.nodup_append, h, hx]
        obtain ⟨h1, h2⟩ := ih (acc ++ [x]) hacc
        refine ⟨h1, ?_⟩
        rw [h2, List.toFinset_append, List.toFinset_cons]
        ext y
        simp only [Finset.mem_union, Finset.mem_insert, List.mem_toFinset,
          List.toFinset_cons, List.mem_singleton, List.mem_append]
        constructor
        · rintro (hy | hy)
          · rcases hy with hy | hy
            · exact Or.inl hy
            · simp at hy
              exact Or.inr (Or.inl hy)
          · exact Or.inr (Or.inr hy)
        · rintro (hy | rfl | hy)
          · exact Or.inl (Or.inl hy)
          · refine Or.inl (Or.inr ?_)
            simp
          · exact Or.inr hy

theorem pySetList_nodup (l : List String) : (pySetList l).Nodup :=
  (pySetList_aux l [] (by simp)).1

theorem pySetList_toFinset (l : List String) : (pySetList l).toFinset = l.toFinset := by
  have h := (pySetList_aux l [] (by simp)).2
  simpa [pySetList] using h

/-! ### C10 -/

/-- C10: whenever the consolidation of a nonempty well-formed record list
succeeds, the course name, term, teaching style and location type are read
solely from the first record, and the teacher-name field is the comma join
of the deduplicated teacher names drawn from all records (no duplicates,
and exactly the set of names occurring in the input). -/
theorem consolidate_first_record_fields (first : RawItem) (rest : List RawItem)
    (r : Detail) (h : process_course_detail (first :: rest) = DetailOut.ok r) :
    r.course_name = first.jxbmc ∧ r.term = first.xnxqmc ∧
    r.teach_style = first.jxhjmc ∧ r.location_type = first.zdgnqmc ∧
    r.teacher_name = String.intercalate "," (pySetList ((first :: rest).map RawItem.teaxms)) ∧
    (pySetList ((first :: rest).map RawItem.teaxms)).Nodup ∧
    (pySetList ((first :: rest).map RawItem.teaxms)).toFinset =
      ((first :: rest).map RawItem.teaxms).toFinset := by
  simp only [process_course_detail] at h
  split at h
  · exact absurd h (by simp)
  · split at h
    · exact absurd h (by simp)
    · injection h with h'
      subst h'
      exact ⟨rfl, rfl, rfl, rfl, rfl, pySetList_nodup _, pySetList_toFinset _⟩

/-- Witness for C10: the concrete two-record input rec1, rec2 consolidates
successfully, with header fields from rec1 and the two distinct teacher
names comma-joined. -/
theorem consolidate_first_record_fields_witness :
    rec12Detail.course_name = rec1.jxbmc ∧ rec12Detail.term = rec1.xnxqmc ∧
    rec12Detail.teach_style = rec1.jxhjmc ∧ rec12Detail.location_type = rec1.zdgnqmc ∧
    rec12Detail.teacher_name =
      String.intercalate "," (pySetList ([rec1, rec2].map RawItem.teaxms)) ∧
    (pySetList ([rec1, rec2].map RawItem.teaxms)).Nodup ∧
    (pySetList ([rec1, rec2].map RawItem.teaxms)).toFinset =
      ([rec1, rec2].map RawItem.teaxms).toFinset :=
  consolidate_first_record_fields rec1 [rec2] rec12Detail (by decide)
